import Mathlib

/-!
Verification of the RecomText repository: a shallow embedding of
`src/data/software_socdem.py` (history preprocessing) and
`src/trainers/trainer.py` (training / validation loop), with theorems
settling the specification claims.

Machine integers are modelled as `Nat` with explicit reduction modulo
`2 ^ 32` where the 32-bit arithmetic of SHA-256 overflows; Python
exceptions are modelled with `Except`; the Python `None` result of
`Trainer.validate` is modelled with `Option`.
-/

set_option linter.unusedVariables false
set_option maxRecDepth 100000

namespace RecomText

/-! ### SHA-256, embedding `hashlib.sha256(text.encode()).hexdigest()`

`create_hash` in `src/data/software_socdem.py` is
`hashlib.sha256(text.encode()).hexdigest()[:16]`.  `str.encode()` is
UTF-8; the digest is rendered as 64 lowercase hex characters and the
first 16 are kept.  The SHA-256 compression below follows FIPS 180-4,
on `Nat` reduced modulo `2 ^ 32`. -/

/-- Reduce to a 32-bit word. -/
def w32 (n : ℕ) : ℕ := n % 4294967296

/-- Right rotation of a 32-bit word by `n` bits. -/
def rotr (n x : ℕ) : ℕ := w32 ((x >>> n) ||| (x <<< (32 - n)))

/-- Bitwise complement inside 32 bits. -/
def bnot32 (x : ℕ) : ℕ := x ^^^ 4294967295

/-- SHA-256 `Ch` function. -/
def ch (x y z : ℕ) : ℕ := (x &&& y) ^^^ (bnot32 x &&& z)

/-- SHA-256 `Maj` function. -/
def maj (x y z : ℕ) : ℕ := (x &&& y) ^^^ (x &&& z) ^^^ (y &&& z)

/-- SHA-256 big sigma 0. -/
def bs0 (x : ℕ) : ℕ := rotr 2 x ^^^ rotr 13 x ^^^ rotr 22 x

/-- SHA-256 big sigma 1. -/
def bs1 (x : ℕ) : ℕ := rotr 6 x ^^^ rotr 11 x ^^^ rotr 25 x

/-- SHA-256 small sigma 0. -/
def ss0 (x : ℕ) : ℕ := rotr 7 x ^^^ rotr 18 x ^^^ (x >>> 3)

/-- SHA-256 small sigma 1. -/
def ss1 (x : ℕ) : ℕ := rotr 17 x ^^^ rotr 19 x ^^^ (x >>> 10)

/-- The 64 SHA-256 round constants. -/
def K256 : List ℕ :=
  [1116352408, 1899447441, 3049323471, 3921009573, 961987163, 1508970993,
   2453635748, 2870763221, 3624381080, 310598401, 607225278, 1426881987,
   1925078388, 2162078206, 2614888103, 3248222580, 3835390401, 4022224774,
   264347078, 604807628, 770255983, 1249150122, 1555081692, 1996064986,
   2554220882, 2821834349, 2952996808, 3210313671, 3336571891, 3584528711,
   113926993, 338241895, 666307205, 773529912, 1294757372, 1396182291,
   1695183700, 1986661051, 2177026350, 2456956037, 2730485921, 2820302411,
   3259730800, 3345764771, 3516065817, 3600352804, 4094571909, 275423344,
   430227734, 506948616, 659060556, 883997877, 958139571, 1322822218,
   1537002063, 1747873779, 1955562222, 2024104815, 2227730452, 2361852424,
   2428436474, 2756734187, 3204031479, 3329325298]

/-- The eight 32-bit words of a SHA-256 hash state. -/
structure H8 where
  h0 : ℕ
  h1 : ℕ
  h2 : ℕ
  h3 : ℕ
  h4 : ℕ
  h5 : ℕ
  h6 : ℕ
  h7 : ℕ

/-- SHA-256 initial hash value. -/
def initH : H8 :=
  ⟨1779033703, 3144134277, 1013904242, 2773480762, 1359893119, 2600822924, 528734635, 1541459225⟩

/-- The eight working registers of the compression loop. -/
structure Regs where
  a : ℕ
  b : ℕ
  c : ℕ
  d : ℕ
  e : ℕ
  f : ℕ
  g : ℕ
  h : ℕ

/-- One round of the SHA-256 compression loop; `kw` is the pair of the
round constant and the message-schedule word. -/
def compressRound (r : Regs) (kw : ℕ × ℕ) : Regs :=
  let t1 := w32 (r.h + bs1 r.e + ch r.e r.f r.g + kw.1 + kw.2)
  let t2 := w32 (bs0 r.a + maj r.a r.b r.c)
  ⟨w32 (t1 + t2), r.a, r.b, r.c, w32 (r.d + t1), r.e, r.f, r.g⟩

/-- Extend the 16-word message block to the 64-word schedule; `fuel`
counts the remaining words to append (48 for SHA-256). -/
def extendSchedule : ℕ → List ℕ → List ℕ
  | 0, ws => ws
  | n + 1, ws =>
    let t := ws.length
    let w15 := ws.getD (t - 15) 0
    let w2 := ws.getD (t - 2) 0
    let w16 := ws.getD (t - 16) 0
    let w7 := ws.getD (t - 7) 0
    extendSchedule n (ws ++ [w32 (w16 + ss0 w15 + w7 + ss1 w2)])

/-- Process one 16-word block, updating the hash state. -/
def processBlock (hs : H8) (block : List ℕ) : H8 :=
  let ws := extendSchedule 48 block
  let r0 : Regs := ⟨hs.h0, hs.h1, hs.h2, hs.h3, hs.h4, hs.h5, hs.h6, hs.h7⟩
  let r := (K256.zip ws).foldl compressRound r0
  ⟨w32 (hs.h0 + r.a), w32 (hs.h1 + r.b), w32 (hs.h2 + r.c), w32 (hs.h3 + r.d),
   w32 (hs.h4 + r.e), w32 (hs.h5 + r.f), w32 (hs.h6 + r.g), w32 (hs.h7 + r.h)⟩

/-- Pad a byte message per FIPS 180-4: append `0x80`, zero bytes to 56
mod 64, then the bit length as 8 big-endian bytes. -/
def padMessage (msg : List ℕ) : List ℕ :=
  let L := msg.length
  let zeros := (64 + 56 - (L + 1) % 64) % 64
  let bits := L * 8
  msg ++ [0x80] ++ List.replicate zeros 0 ++
    [(bits >>> 56) &&& 255, (bits >>> 48) &&& 255, (bits >>> 40) &&& 255, (bits >>> 32) &&& 255,
     (bits >>> 24) &&& 255, (bits >>> 16) &&& 255, (bits >>> 8) &&& 255, bits &&& 255]

/-- Pack bytes into 32-bit big-endian words. -/
def bytesToWords : List ℕ → List ℕ
  | b0 :: b1 :: b2 :: b3 :: rest =>
    (b0 * 16777216 + b1 * 65536 + b2 * 256 + b3) :: bytesToWords rest
  | _ => []

/-- Split a word stream into 16-word blocks. -/
def wordsToBlocks : List ℕ → List (List ℕ)
  | w0 :: w1 :: w2 :: w3 :: w4 :: w5 :: w6 :: w7 :: w8 :: w9 :: w10 :: w11 :: w12 :: w13 :: w14 :: w15 :: rest =>
    [w0, w1, w2, w3, w4, w5, w6, w7, w8, w9, w10, w11, w12, w13, w14, w15] :: wordsToBlocks rest
  | _ => []

/-- SHA-256 of a byte message, as the final hash state. -/
def sha256Bytes (msg : List ℕ) : H8 :=
  (wordsToBlocks (bytesToWords (padMessage msg))).foldl processBlock initH

/-- Lowercase hex digit. -/
def hexChar (n : ℕ) : Char := if n < 10 then Char.ofNat (48 + n) else Char.ofNat (87 + n)

/-- Render a 32-bit word as 8 hex characters. -/
def toHex8 (w : ℕ) : List Char :=
  [hexChar (w / 268435456 % 16), hexChar (w / 16777216 % 16), hexChar (w / 1048576 % 16),
   hexChar (w / 65536 % 16), hexChar (w / 4096 % 16), hexChar (w / 256 % 16),
   hexChar (w / 16 % 16), hexChar (w % 16)]

/-- The 64 hex characters of the SHA-256 digest of a byte message. -/
def sha256HexChars (msg : List ℕ) : List Char :=
  let hs := sha256Bytes msg
  toHex8 hs.h0 ++ toHex8 hs.h1 ++ toHex8 hs.h2 ++ toHex8 hs.h3 ++
    toHex8 hs.h4 ++ toHex8 hs.h5 ++ toHex8 hs.h6 ++ toHex8 hs.h7

/-- UTF-8 encoding of one character (Python `str.encode()`). -/
def utf8EncodeChar (c : Char) : List ℕ :=
  let n := c.toNat
  if n < 0x80 then [n]
  else if n < 0x800 then [0xC0 + n / 64, 0x80 + n % 64]
  else if n < 0x10000 then [0xE0 + n / 4096, 0x80 + n / 64 % 64, 0x80 + n % 64]
  else [0xF0 + n / 262144, 0x80 + n / 4096 % 64, 0x80 + n / 64 % 64, 0x80 + n % 64]

/-- UTF-8 bytes of a string. -/
def utf8Bytes (s : String) : List ℕ := (s.data.map utf8EncodeChar).flatten

/-- `hashlib.sha256(text.encode()).hexdigest()` as a string. -/
def sha256_hexdigest (text : String) : String := ⟨sha256HexChars (utf8Bytes text)⟩

/-- `create_hash` of `src/data/software_socdem.py`:
`hashlib.sha256(text.encode()).hexdigest()[:16]`. -/
def create_hash (text : String) : String := ⟨(sha256HexChars (utf8Bytes text)).take 16⟩

/-! ### HistoryBuilder, embedding `src/data/software_socdem.py`

A repository record carries the columns that `create_repo_history_sorted`
reads: `owner`, `nameWithOwner` and the `pushedAt` timestamp (modelled as
an integer instant).  The hashed columns `repo_id` and `owner_hash` that
the Python code adds to the frame are `create_hash` applied pointwise to
`nameWithOwner` and `owner`. -/

/-- One row of the repository metadata frame, restricted to the columns
used by `create_repo_history_sorted`. -/
structure Repo where
  owner : String
  nameWithOwner : String
  pushedAt : ℤ

/-- Comparison used by `df.sort_values('pushedAt')`. -/
def repoLe (a b : Repo) : Prop := a.pushedAt ≤ b.pushedAt

instance : DecidableRel repoLe := fun a b => inferInstanceAs (Decidable (a.pushedAt ≤ b.pushedAt))

instance : IsTotal Repo repoLe := ⟨fun a b => le_total a.pushedAt b.pushedAt⟩

instance : IsTrans Repo repoLe := ⟨fun _ _ _ hab hbc => le_trans hab hbc⟩

/-- Comparison used to model pandas emitting `groupby` groups in sorted
key order. -/
def strLe (a b : String) : Prop := a ≤ b

instance : DecidableRel strLe := fun a b => inferInstanceAs (Decidable (a ≤ b))

instance : IsTotal String strLe := ⟨fun a b => le_total a b⟩

instance : IsTrans String strLe := ⟨fun _ _ _ hab hbc => le_trans hab hbc⟩

/-- `create_repo_history_sorted` of `src/data/software_socdem.py`:
hash the owner and repository names, sort by `pushedAt`, group the
`repo_id` column by `owner_hash` (groups in key order, rows in frame
order), and keep only the owners with more than one repository. -/
def create_repo_history_sorted (df : List Repo) : List (String × List String) :=
  let sorted := List.insertionSort repoLe df
  let keys := List.insertionSort strLe ((sorted.map fun r => create_hash r.owner).dedup)
  let grouped := keys.map fun k =>
    (k, (sorted.filter fun r => create_hash r.owner == k).map fun r => create_hash r.nameWithOwner)
  grouped.filter fun p => decide (1 < p.2.length)

/-- One entry of a row's `languages` column: a language name with its
size in bytes. -/
structure Lang where
  name : String
  size : ℕ

/-- One row of the frame, restricted to the columns used by
`create_user_description`. -/
structure RepoItem where
  owner : String
  stars : ℕ
  forks : ℕ
  watchers : ℕ
  defaultBranchCommitCount : ℕ
  languages : List Lang

/-- The Python dict update `languages[name] += size` /
`languages[name] = size` on an insertion-ordered association list. -/
def addLang : List (String × ℕ) → Lang → List (String × ℕ)
  | [], l => [(l.name, l.size)]
  | p :: ps, l =>
    if p.1 == l.name then (p.1, p.2 + l.size) :: ps else p :: addLang ps l

/-- The nested loop of `create_description` that accumulates the
language-to-weight map over all of the owner's items. -/
def accumulate_languages (group : List RepoItem) : List (String × ℕ) :=
  group.foldl (fun acc item => item.languages.foldl addLang acc) []

/-- Weight-descending comparison used by
`sorted(languages.items(), key=lambda x: x[1], reverse=True)`. -/
def weightGe (a b : String × ℕ) : Prop := b.2 ≤ a.2

instance : DecidableRel weightGe := fun a b => inferInstanceAs (Decidable (b.2 ≤ a.2))

instance : IsTotal (String × ℕ) weightGe := ⟨fun a b => le_total b.2 a.2⟩

instance : IsTrans (String × ℕ) weightGe := ⟨fun _ _ _ hab hbc => le_trans hbc hab⟩

/-- Top 3 languages by cumulative weight, descending. -/
def top_languages (group : List RepoItem) : List (String × ℕ) :=
  (List.insertionSort weightGe (accumulate_languages group)).take 3

/-- The rendered top-language clause of the description. -/
def top_langs_str (group : List RepoItem) : String :=
  String.intercalate ", "
    ((top_languages group).map fun p => p.1 ++ " (" ++ toString p.2 ++ " байт)")

/-- `create_description` inside `create_user_description`: the rendered
aggregate description of one owner's group of rows. -/
def create_description (group : List RepoItem) : String :=
  let total_stars := (group.map RepoItem.stars).sum
  let total_forks := (group.map RepoItem.forks).sum
  let total_watchers := (group.map RepoItem.watchers).sum
  let total_commits := (group.map RepoItem.defaultBranchCommitCount).sum
  "passage: Владелец " ++ toString group.length ++ " репозиториев, всего " ++
    toString total_stars ++ " звезд, " ++ toString total_forks ++ " форков, " ++
    toString total_watchers ++ " наблюдателей, " ++ toString total_commits ++
    " коммитов. Основные языки: " ++ top_langs_str group

/-- `create_user_description`: group the frame by hashed owner and apply
`create_description` to each group. -/
def create_user_description (df : List RepoItem) : List (String × String) :=
  let keys := List.insertionSort strLe ((df.map fun r => create_hash r.owner).dedup)
  keys.map fun k =>
    (k, create_description (df.filter fun r => create_hash r.owner == k))

/-- Value of a key in the insertion-ordered association list (a Python
dict lookup, with `0` for a missing key). -/
def valueOf (acc : List (String × ℕ)) (name : String) : ℕ :=
  match acc.find? fun p => p.1 == name with
  | some p => p.2
  | none => 0

/-! ### Trainer, embedding `src/trainers/trainer.py`

External collaborators are abstracted: the FAISS index search is a
function argument, embeddings are rational vectors, the demographic
frame is an opaque value whose only control-flow-relevant property is
whether loading it succeeded.  Python exceptions are modelled with
`Except PyErr`; `Trainer.validate` returning `None` is `Option`. -/

/-- Python exceptions that the modelled trainer code can raise. -/
inductive PyErr
  | fileNotFound (path : String)
  | nameError (n : String)
  | attributeError (n : String)
  | unboundLocal (n : String)
  | zeroDivision
deriving DecidableEq, Repr

/-- Opaque model of the loaded demographic frame together with the
centroids built from it inside the `try` block of `Trainer.validate`
(their values never influence control flow before the code fails). -/
structure DemoData where
  groups : List (String × List ℚ)
deriving DecidableEq

/-- Per-user data of one validation batch row. -/
structure UserRow where
  user_emb : List ℚ
  item_id : ℕ
  user_id : ℕ
deriving DecidableEq

/-- One validation batch: the two scalar losses produced by the model
forward pass on it, and its users. -/
structure ValBatch where
  con_loss : ℚ
  rec_loss : ℚ
  users : List UserRow
deriving DecidableEq

/-- Environment of one `Trainer.validate` call: outcomes of the file
loads and the abstracted external collaborators. -/
structure ValConfig where
  /-- `textual_history.parquet` / `video_info.parquet` loads succeed. -/
  data_files_ok : Bool
  /-- all of index, ids and embeddings files exist. -/
  artifacts_exist : Bool
  /-- outcome of `indexer.main` when invoked on demand. -/
  index_creation_ok : Bool
  /-- `some` iff loading demographic data (and building centroids)
  succeeded; `none` models the exception caught by the `try`. -/
  demo_load : Option DemoData
  lambda_rec : ℚ
  /-- `index.search` abstraction: embedding and `top_k` to indices. -/
  search : List ℚ → ℕ → List ℕ
  video_ids : List ℕ
  /-- `df_videos_map`: video id to category. -/
  videos_map : List (ℕ × String)
  top_k : ℕ

/-- `df_videos_map.get(video_id, {}).get('category', 'Unknown')`. -/
def lookupCategory (m : List (ℕ × String)) (id : ℕ) : String :=
  match m.find? fun p => p.1 == id with
  | some p => p.2
  | none => "Unknown"

/-- `Trainer._process_user`.  The recommendation lookup part is executed,
then the method fails: with demographic centroids available it evaluates
`self.val_dataset`, an attribute the trainer never sets
(`AttributeError`); without them it reaches `return user_metrics` with
`user_metrics` never assigned (`UnboundLocalError`). -/
def process_user (search : List ℚ → ℕ → List ℕ) (user_emb : List ℚ)
    (item_id : ℕ) (user_id : ℕ) (video_ids : List ℕ)
    (df_videos_map : List (ℕ × String)) (top_k : ℕ)
    (demographic_data : DemoData) (demographic_centroids : Option DemoData) :
    Except PyErr (List (String × ℚ)) :=
  let indices := search user_emb top_k
  let rec_categories := indices.map fun idx => lookupCategory df_videos_map (video_ids.getD idx 0)
  let target_category := lookupCategory df_videos_map item_id
  match demographic_centroids with
  | some _ => .error (.attributeError "val_dataset")
  | none => .error (.unboundLocal "user_metrics")

/-- `total_loss += (con_loss + lambda_rec * rec_loss).item()`. -/
def batchLoss (lam : ℚ) (b : ValBatch) : ℚ := b.con_loss + lam * b.rec_loss

/-- Metric accumulators and user count (`metrics_accum`, `num_users`). -/
def MetricsAccum : Type := List (String × ℚ) × ℕ

/-- `metrics_accum = {metric: 0.0 for metric in [...]}`. -/
def initAccum : List (String × ℚ) :=
  [("semantic_precision@k", 0), ("cross_category_relevance", 0), ("contextual_ndcg", 0)]

/-- `Trainer._update_metrics`: add each per-user metric into the
accumulator dict, creating missing keys at `0.0`. -/
def update_metrics (accum : List (String × ℚ)) (user_metrics : List (String × ℚ)) :
    List (String × ℚ) :=
  user_metrics.foldl
    (fun acc p =>
      if acc.any fun q => q.1 == p.1 then
        acc.map fun q => if q.1 == p.1 then (q.1, q.2 + p.2) else q
      else acc ++ [p])
    accum

/-- The inner per-user loop of `Trainer.validate`.  Evaluating the
arguments of the `_process_user` call dereferences the name
`demographic_data`, which is unbound when the demographic load failed. -/
def runUsers (cfg : ValConfig) (users : List UserRow) (acc : List (String × ℚ) × ℕ) :
    Except PyErr (List (String × ℚ) × ℕ) :=
  match users with
  | [] => .ok acc
  | u :: rest =>
    match cfg.demo_load with
    | none => .error (.nameError "demographic_data")
    | some dd =>
      match process_user cfg.search u.user_emb u.item_id u.user_id cfg.video_ids
          cfg.videos_map cfg.top_k dd (some dd) with
      | .error e => .error e
      | .ok ms => runUsers cfg rest (update_metrics acc.1 ms, acc.2 + 1)

/-- The batch loop of `Trainer.validate`: accumulate the combined loss
and process every user of every batch. -/
def runValBatches (cfg : ValConfig) :
    List ValBatch → ℚ → List (String × ℚ) × ℕ → Except PyErr (ℚ × (List (String × ℚ) × ℕ))
  | [], total, acc => .ok (total, acc)
  | b :: bs, total, acc =>
    let total1 := total + batchLoss cfg.lambda_rec b
    match runUsers cfg b.users acc with
    | .error e => .error e
    | .ok acc1 => runValBatches cfg bs total1 acc1

/-- The metrics dict returned by a successful validation: the three loss
entries plus the per-user metric entries (added only when at least one
user was validated). -/
structure MetricsDict where
  val_loss : ℚ
  val_contrastive_loss : ℚ
  val_recommendation_loss : ℚ
  user_metrics : List (String × ℚ)
deriving DecidableEq

/-- `Trainer._compile_metrics`: divide the loss accumulators by the
number of batches (`ZeroDivisionError` on an empty loader) and the
metric accumulators by the number of validated users. -/
def compile_metrics (total_loss contrastive_loss recommendation_loss : ℚ)
    (num_batches : ℕ) (accum : List (String × ℚ)) (num_users : ℕ) :
    Except PyErr MetricsDict :=
  if num_batches = 0 then .error .zeroDivision
  else
    .ok ⟨total_loss / num_batches, contrastive_loss / num_batches,
      recommendation_loss / num_batches,
      if 0 < num_users then accum.map fun p => (p.1, p.2 / num_users) else []⟩

/-- `Trainer.validate`.  Order follows the source: load the history and
video frames, check the three index artifacts (returning `None` when
they are absent and on-demand creation fails), attempt the demographic
load inside `try`, run the batch loop, compile the metrics.  The
contrastive and recommendation accumulators are initialised to `0` and
never incremented anywhere in the loop. -/
def validate (cfg : ValConfig) (batches : List ValBatch) :
    Except PyErr (Option MetricsDict) :=
  if !cfg.data_files_ok then .error (.fileNotFound "./data/textual_history.parquet")
  else if !cfg.artifacts_exist && !cfg.index_creation_ok then .ok none
  else
    let total_contrastive_loss : ℚ := 0
    let total_recommendation_loss : ℚ := 0
    match runValBatches cfg batches 0 (initAccum, 0) with
    | .error e => .error e
    | .ok (total_loss, accum, num_users) =>
      match compile_metrics total_loss total_contrastive_loss total_recommendation_loss
          batches.length accum num_users with
      | .error e => .error e
      | .ok m => .ok (some m)

/-- Result of `Trainer._save_checkpoint`. -/
structure SaveResult where
  /-- `model_path = os.path.join(checkpoint_dir, f'model_epoch_{epoch}')`. -/
  model_path : String
  /-- the `inference.model_path` handed to the index rebuild. -/
  rebuild_path : String
  /-- the logged rebuild error, when the rebuild raised. -/
  rebuild_error : Option String
deriving DecidableEq

/-- `Trainer._save_checkpoint`: save the model, point the indexer config
at the fresh checkpoint and request an index rebuild; a rebuild
exception is caught and logged, so the method always returns normally
(its result is always `.ok`). -/
def save_checkpoint (checkpoint_dir : String) (epoch : ℕ)
    (rebuild : String → Except String Unit) : Except PyErr SaveResult :=
  let model_path := checkpoint_dir ++ "/model_epoch_" ++ toString epoch
  match rebuild model_path with
  | .ok _ => .ok ⟨model_path, model_path, none⟩
  | .error e => .ok ⟨model_path, model_path, some e⟩

/-- The early-stopping / checkpoint state of `Trainer.train`
(`best_metric = none` models the initial `float('-inf')`). -/
structure TrainState where
  best_metric : Option ℚ
  best_epoch : ℕ
  no_improvement : ℕ
  /-- epochs passed to `_save_checkpoint`, in call order. -/
  checkpoints : List ℕ
deriving DecidableEq

/-- `current_metric > self.best_metric`, with the initial best at
`float('-inf')`. -/
def improvesB (m : ℚ) : Option ℚ → Bool
  | none => true
  | some b => decide (b < m)

/-- State at trainer construction. -/
def initTrainState : TrainState := ⟨none, 0, 0, []⟩

/-- One epoch of `Trainer.train` after `train_epoch`: the unconditional
first-epoch checkpoint, then the handling of this epoch's validation
outcome (`none` models `validate` returning `None`; `some m` models a
metrics dict with `val_metrics.get('contextual_ndcg', 0) = m`).  The
returned flag says whether the loop continues (no early-stop break). -/
def trainStep (patience : ℕ) (st : TrainState) (epoch : ℕ) (val : Option ℚ) :
    TrainState × Bool :=
  let cps := if epoch = 0 then st.checkpoints ++ [0] else st.checkpoints
  match val with
  | none => ({ st with checkpoints := cps }, true)
  | some m =>
    if improvesB m st.best_metric then
      (⟨some m, epoch, 0, cps ++ [epoch]⟩, decide (0 < patience))
    else
      ({ st with checkpoints := cps, no_improvement := st.no_improvement + 1 },
        decide (st.no_improvement + 1 < patience))

/-- The epoch loop of `Trainer.train` over the per-epoch validation
outcomes; returns the final state and the number of epochs executed. -/
def trainLoop (patience : ℕ) : List (Option ℚ) → ℕ → TrainState → TrainState × ℕ
  | [], e, st => (st, e)
  | v :: vs, e, st =>
    let r := trainStep patience st e v
    if r.2 then trainLoop patience vs (e + 1) r.1 else (r.1, e + 1)

/-- `Trainer.train`: run the epoch loop from the freshly constructed
state; the list holds one validation outcome per scheduled epoch. -/
def train (patience : ℕ) (vals : List (Option ℚ)) : TrainState × ℕ :=
  trainLoop patience vals 0 initTrainState

/-- Decidable equality of `Except` results, used to evaluate the
embedded trainer code on concrete inputs. -/
instance {ε α : Type} [DecidableEq ε] [DecidableEq α] : DecidableEq (Except ε α) := fun a b =>
  match a, b with
  | .ok x, .ok y =>
    if h : x = y then .isTrue (by rw [h])
    else .isFalse (by intro hc; cases hc; exact h rfl)
  | .error x, .error y =>
    if h : x = y then .isTrue (by rw [h])
    else .isFalse (by intro hc; cases hc; exact h rfl)
  | .ok _, .error _ => .isFalse (by intro hc; cases hc)
  | .error _, .ok _ => .isFalse (by intro hc; cases hc)

/-! ### Concrete inputs used to evaluate the embedded code -/

/-- A validation environment whose index artifacts are absent and whose
on-demand index creation fails. -/
def cfgNoIndex : ValConfig :=
  ⟨true, false, false, some ⟨[]⟩, 1, fun _ _ => [], [], [], 10⟩

/-- A validation environment where everything loads, including the
demographic data. -/
def cfgOk : ValConfig :=
  ⟨true, true, true, some ⟨[]⟩, 1, fun _ _ => [], [], [], 10⟩

/-- A validation environment where loading the demographic data fails
(e.g. the demographic parquet file is absent). -/
def cfgDemoFail : ValConfig :=
  ⟨true, true, true, none, 1, fun _ _ => [], [], [], 10⟩

/-- A validation batch with one user. -/
def oneUserBatch : ValBatch := ⟨0, 0, [⟨[], 0, 0⟩]⟩

/-- A validation batch with no users (the degenerate case in which the
per-user code is never reached). -/
def emptyUsersBatch : ValBatch := ⟨1, 1, []⟩

/-- A two-repository frame owned by a single owner. -/
def df_w : List Repo :=
  [⟨"alice", "alice/r1", 5⟩, ⟨"alice", "alice/r2", 3⟩]

/-- An owner group with language weights Python:100, Go:50 on the first
item and Python:30 on the second. -/
def demoGroup : List RepoItem :=
  [⟨"alice", 0, 0, 0, 0, [⟨"Python", 100⟩, ⟨"Go", 50⟩]⟩,
   ⟨"alice", 0, 0, 0, 0, [⟨"Python", 30⟩]⟩]

end RecomText


namespace RecomText

/-! ### Helper lemmas -/

/-- A checkpoint already recorded survives one training step. -/
theorem trainStep_checkpoints_mem {patience : ℕ} {st : TrainState} {e : ℕ}
    {v : Option ℚ} {x : ℕ} (hx : x ∈ st.checkpoints) :
    x ∈ (trainStep patience st e v).1.checkpoints := by
  have hcps : x ∈ (if e = 0 then st.checkpoints ++ [0] else st.checkpoints) := by
    split <;> simp [hx]
  cases v with
  | none => simpa [trainStep] using hcps
  | some m =>
    by_cases him : improvesB m st.best_metric <;>
      simp [trainStep, him, hcps]

/-- A checkpoint already recorded survives the rest of the loop. -/
theorem trainLoop_checkpoints_mem (patience : ℕ) (vals : List (Option ℚ))
    (e : ℕ) (st : TrainState) (x : ℕ) (hx : x ∈ st.checkpoints) :
    x ∈ (trainLoop patience vals e st).1.checkpoints := by
  induction vals generalizing e st with
  | nil => simpa [trainLoop] using hx
  | cons v vs ih =>
    simp only [trainLoop]
    split
    · exact ih _ _ (trainStep_checkpoints_mem hx)
    · exact trainStep_checkpoints_mem hx

/-- Epoch 0 always records a checkpoint. -/
theorem trainStep_zero_mem (patience : ℕ) (st : TrainState) (v : Option ℚ) :
    0 ∈ (trainStep patience st 0 v).1.checkpoints := by
  cases v with
  | none => simp [trainStep]
  | some m =>
    by_cases him : improvesB m st.best_metric <;>
      simp [trainStep, him]

end RecomText

namespace RecomText

/-! ### Claim theorems: trainer -/

/-- C1: the claim says `_process_user` computes and returns per-user
semantic precision@K, cross-category relevance and contextual NDCG (plus
a demographic-alignment score when centroids are available).  The code
never does: for every input, `process_user` raises — an
`AttributeError` on the unset `self.val_dataset` when centroids are
available, an `UnboundLocalError` on the never-assigned `user_metrics`
otherwise — so no per-user metrics dict is ever returned. -/
theorem process_user_never_returns_metrics :
    ∀ (search : List ℚ → ℕ → List ℕ) (user_emb : List ℚ) (item_id user_id : ℕ)
      (video_ids : List ℕ) (df_videos_map : List (ℕ × String)) (top_k : ℕ)
      (dd : DemoData) (centroids : Option DemoData),
      ∃ e : PyErr,
        process_user search user_emb item_id user_id video_ids df_videos_map
          top_k dd centroids = .error e := by
  intro search user_emb item_id user_id video_ids df_videos_map top_k dd centroids
  cases centroids with
  | none => exact ⟨.unboundLocal "user_metrics", rfl⟩
  | some dd2 => exact ⟨.attributeError "val_dataset", rfl⟩

/-- C2: the claim says a demographic-load failure degrades gracefully
and validation still returns the non-demographic metrics.  Evaluating
the embedded `validate` at a failing load with a single one-user batch:
the pass raises `NameError` on the unbound `demographic_data` at the
`_process_user` call site instead of returning metrics, so training
fails. -/
theorem validate_demo_failure_raises :
    validate cfgDemoFail [oneUserBatch] = .error (.nameError "demographic_data") := by
  rfl

/-- C3: the no-improvement counter is incremented after every validated
epoch whose metric does not strictly exceed the best, reset to zero on
strict improvement, and the loop continues exactly while the counter is
below the configured patience; in particular with patience 3 and a
metric sequence that never improves after epoch 0, training runs
exactly epochs 0..3 (halting after epoch 0 + patience). -/
theorem early_stopping_counter :
    (∀ (patience : ℕ) (st : TrainState) (e : ℕ) (m : ℚ),
      (trainStep patience st e (some m)).1.no_improvement
        = (if improvesB m st.best_metric then 0 else st.no_improvement + 1)
      ∧ (trainStep patience st e (some m)).2
        = decide ((trainStep patience st e (some m)).1.no_improvement < patience))
    ∧ (∀ (m0 a b c : ℚ) (rest : List (Option ℚ)),
      a ≤ m0 → b ≤ m0 → c ≤ m0 →
      (train 3 (some m0 :: some a :: some b :: some c :: rest)).2 = 4) := by
  constructor
  · intro patience st e m
    by_cases him : improvesB m st.best_metric <;> simp [trainStep, him]
  · intro m0 a b c rest ha hb hc
    have ha2 : (decide (m0 < a)) = false := decide_eq_false (not_lt.mpr ha)
    have hb2 : (decide (m0 < b)) = false := decide_eq_false (not_lt.mpr hb)
    have hc2 : (decide (m0 < c)) = false := decide_eq_false (not_lt.mpr hc)
    simp [train, trainLoop, trainStep, initTrainState, improvesB, ha2, hb2, hc2]

/-- C3 witness: the scenario at metric 1 followed by 0, 0, 0. -/
theorem early_stopping_counter_witness :
    (train 3 [some 1, some 0, some 0, some 0]).2 = 4 :=
  early_stopping_counter.2 1 0 0 0 [] (by decide) (by decide) (by decide)

/-- C4: a checkpoint is recorded after epoch 0 whatever the validation
outcome; a validated epoch records an (additional) checkpoint exactly
when its metric strictly improves on the best, and in particular an
epoch whose metric merely equals the best records none. -/
theorem checkpoint_trigger :
    (∀ (patience : ℕ) (vals : List (Option ℚ)), vals ≠ [] →
      0 ∈ (train patience vals).1.checkpoints)
    ∧ (∀ (patience : ℕ) (st : TrainState) (e : ℕ) (m : ℚ),
      (improvesB m st.best_metric = true →
        (trainStep patience st e (some m)).1.checkpoints
          = (if e = 0 then st.checkpoints ++ [0] else st.checkpoints) ++ [e])
      ∧ (improvesB m st.best_metric = false →
        (trainStep patience st e (some m)).1.checkpoints
          = (if e = 0 then st.checkpoints ++ [0] else st.checkpoints))
      ∧ (st.best_metric = some m →
        (trainStep patience st e (some m)).1.checkpoints
          = (if e = 0 then st.checkpoints ++ [0] else st.checkpoints))) := by
  constructor
  · intro patience vals hne
    cases vals with
    | nil => exact absurd rfl hne
    | cons v vs =>
      simp only [train, trainLoop]
      split
      · exact trainLoop_checkpoints_mem _ _ _ _ _ (trainStep_zero_mem _ _ _)
      · exact trainStep_zero_mem _ _ _
  · intro patience st e m
    refine ⟨fun him => ?_, fun him => ?_, fun heq => ?_⟩
    · simp [trainStep, him]
    · simp [trainStep, him]
    · have him : improvesB m st.best_metric = false := by
        simp [improvesB, heq]
      simp [trainStep, him]

/-- C4 witness: epoch 0 checkpoints with a non-improving outcome; an
improving epoch 1 records a checkpoint; an equal-metric epoch records
none. -/
theorem checkpoint_trigger_witness :
    0 ∈ (train 1 [none]).1.checkpoints
    ∧ (trainStep 1 initTrainState 1 ((2 : ℚ))).1.checkpoints
        = (if (1 : ℕ) = 0 then initTrainState.checkpoints ++ [0]
           else initTrainState.checkpoints) ++ [1]
    ∧ (trainStep 1 ⟨some 2, 0, 0, []⟩ 1 (some 2)).1.checkpoints
        = (if (1 : ℕ) = 0 then TrainState.checkpoints ⟨some 2, 0, 0, []⟩ ++ [0]
           else TrainState.checkpoints ⟨some 2, 0, 0, []⟩) :=
  ⟨checkpoint_trigger.1 1 [none] (by simp),
   (checkpoint_trigger.2 1 initTrainState 1 2).1 (by decide),
   (checkpoint_trigger.2 1 ⟨some 2, 0, 0, []⟩ 1 2).2.2 rfl⟩

/-- C5: when the index artifacts are absent and on-demand creation
fails, `validate` returns `None`, and a `None` validation outcome leaves
the best metric and the early-stop counter unchanged and never breaks
the loop. -/
theorem validation_skip_on_missing_index :
    (∀ (cfg : ValConfig) (batches : List ValBatch),
      cfg.data_files_ok = true → cfg.artifacts_exist = false →
      cfg.index_creation_ok = false → validate cfg batches = .ok none)
    ∧ (∀ (patience : ℕ) (st : TrainState) (e : ℕ),
      (trainStep patience st e none).1.no_improvement = st.no_improvement
      ∧ (trainStep patience st e none).1.best_metric = st.best_metric
      ∧ (trainStep patience st e none).2 = true) := by
  constructor
  · intro cfg batches h1 h2 h3
    simp [validate, h1, h2, h3]
  · intro patience st e
    refine ⟨?_, ?_, ?_⟩ <;> simp [trainStep]

/-- C5 witness: the concrete environment with missing artifacts and a
failing index build, and a concrete training state. -/
theorem validation_skip_on_missing_index_witness :
    validate cfgNoIndex [oneUserBatch] = .ok none
    ∧ (trainStep 5 ⟨some 3, 1, 2, [0]⟩ 4 none).1.no_improvement = 2 :=
  ⟨validation_skip_on_missing_index.1 cfgNoIndex [oneUserBatch] rfl rfl rfl,
   (validation_skip_on_missing_index.2 5 ⟨some 3, 1, 2, [0]⟩ 4).1⟩

/-- C6: `_save_checkpoint` always returns normally; it hands the index
rebuild exactly the just-saved checkpoint path
`checkpoint_dir/model_epoch_<epoch>`, and a rebuild exception is caught
and recorded as a logged error instead of propagating. -/
theorem save_checkpoint_total :
    ∀ (dir : String) (epoch : ℕ) (rebuild : String → Except String Unit),
      ∃ r : SaveResult,
        save_checkpoint dir epoch rebuild = .ok r
        ∧ r.model_path = dir ++ "/model_epoch_" ++ toString epoch
        ∧ r.rebuild_path = r.model_path
        ∧ ∀ e, rebuild r.model_path = .error e → r.rebuild_error = some e := by
  intro dir epoch rebuild
  cases h : rebuild (dir ++ "/model_epoch_" ++ toString epoch) with
  | ok u =>
    refine ⟨⟨_, _, none⟩, ?_, rfl, rfl, ?_⟩
    · simp [save_checkpoint, h]
    · intro e he
      rw [h] at he
      exact absurd he (by simp)
  | error e0 =>
    refine ⟨⟨_, _, some e0⟩, ?_, rfl, rfl, ?_⟩
    · simp [save_checkpoint, h]
    · intro e he
      rw [h] at he
      cases he
      rfl

/-- C6 witness: a rebuild that always raises is caught and logged while
the save still returns. -/
theorem save_checkpoint_total_witness :
    ∃ r : SaveResult,
      save_checkpoint "ckpt" 0 (fun _ => .error "boom") = .ok r
      ∧ r.model_path = "ckpt" ++ "/model_epoch_" ++ toString 0
      ∧ r.rebuild_path = r.model_path
      ∧ ∀ e, (Except.error "boom" : Except String Unit) = .error e →
          r.rebuild_error = some e := by
  obtain ⟨r, h1, h2, h3, h4⟩ := save_checkpoint_total "ckpt" 0 (fun _ => .error "boom")
  exact ⟨r, h1, h2, h3, fun e he => h4 e he⟩

/-- C10: whenever `validate` returns a metrics dict, its
`val_contrastive_loss` and `val_recommendation_loss` entries are exactly
0: the loop only accumulates the combined loss, so the two separate
accumulators are still at their initial `0` when divided by the batch
count. -/
theorem val_component_losses_zero :
    ∀ (cfg : ValConfig) (batches : List ValBatch) (m : MetricsDict),
      validate cfg batches = .ok (some m) →
      m.val_contrastive_loss = 0 ∧ m.val_recommendation_loss = 0 := by
  intro cfg batches m h
  unfold validate at h
  split at h
  · exact absurd h (by simp)
  · split at h
    · exact absurd h (by simp)
    · split at h
      · exact absurd h (by simp)
      · rename_i total acc heq
        unfold compile_metrics at h
        split at h
        · exact absurd h (by simp)
        · simp only [Except.ok.injEq, Option.some.injEq] at h
          subst h
          simp

/-- C10 witness: a successful validation over one user-free batch
reports zero contrastive and recommendation losses. -/
theorem val_component_losses_zero_witness :
    ∃ m : MetricsDict, validate cfgOk [emptyUsersBatch] = .ok (some m)
      ∧ m.val_contrastive_loss = 0 ∧ m.val_recommendation_loss = 0 :=
  ⟨_, rfl, (val_component_losses_zero cfgOk [emptyUsersBatch] _ rfl).1,
    (val_component_losses_zero cfgOk [emptyUsersBatch] _ rfl).2⟩

end RecomText

namespace RecomText

/-! ### Helper lemmas: language aggregation -/

/-- A dict update changes the looked-up value of `name` by `l.size`
exactly when `l.name = name`. -/
theorem valueOf_addLang (acc : List (String × ℕ)) (l : Lang) (name : String) :
    valueOf (addLang acc l) name
      = valueOf acc name + (if l.name = name then l.size else 0) := by
  induction acc with
  | nil =>
    by_cases h : l.name = name
    · simp [addLang, valueOf, List.find?, h]
    · have hb : (l.name == name) = false := by simpa using h
      simp [addLang, valueOf, List.find?, h, hb]
  | cons p ps ih =>
    by_cases hp : p.1 == l.name
    · have hp2 : p.1 = l.name := by simpa using hp
      by_cases hn : p.1 = name
      · subst hn
        simp [addLang, hp, valueOf, List.find?, hp2.symm]
      · have hln : ¬ l.name = name := fun hc => hn (hp2.trans hc)
        have hb : (p.1 == name) = false := by simpa using hn
        simp [addLang, hp, valueOf, List.find?, hb, hln]
    · have hp2 : ¬ p.1 = l.name := by simpa using hp
      by_cases hn : p.1 = name
      · have hln : ¬ l.name = name := fun hc => hp2 (hn.trans hc.symm)
        have hb : (p.1 == name) = true := by simpa using hn
        simp [addLang, hp, valueOf, List.find?, hb, hln]
      · have hb : (p.1 == name) = false := by simpa using hn
        have := ih
        simp only [valueOf, List.find?, hb] at this ⊢
        simpa [addLang, hp, List.find?, hb] using this

/-- Folding a list of languages into the dict adds the total matching
size. -/
theorem valueOf_foldl_addLang (langs : List Lang) (acc : List (String × ℕ)) (name : String) :
    valueOf (langs.foldl addLang acc) name
      = valueOf acc name
        + ((langs.filter fun l => l.name == name).map Lang.size).sum := by
  induction langs generalizing acc with
  | nil => simp
  | cons l ls ih =>
    by_cases h : l.name = name
    · simp [List.foldl_cons, ih, valueOf_addLang, h, Nat.add_assoc]
    · have hb : (l.name == name) = false := by simpa using h
      simp [List.foldl_cons, ih, valueOf_addLang, h, hb]

/-- Accumulating over the whole group sums the sizes of every matching
language occurrence over all of the owner's items. -/
theorem valueOf_accumulate_languages (group : List RepoItem) (name : String) :
    valueOf (accumulate_languages group) name
      = (((group.map RepoItem.languages).flatten.filter fun l => l.name == name).map
          Lang.size).sum := by
  suffices h : ∀ acc, valueOf (group.foldl (fun acc item => item.languages.foldl addLang acc) acc) name
      = valueOf acc name
        + (((group.map RepoItem.languages).flatten.filter fun l => l.name == name).map
            Lang.size).sum by
    simpa [accumulate_languages, valueOf, List.find?] using h []
  induction group with
  | nil => simp
  | cons item items ih =>
    intro acc
    simp [List.foldl_cons, ih, valueOf_foldl_addLang, Nat.add_assoc]

end RecomText

namespace RecomText

/-- The digest always renders as 64 hex characters. -/
theorem sha256HexChars_length (msg : List ℕ) : (sha256HexChars msg).length = 64 := rfl

/-! ### Claim theorems: HistoryBuilder -/

/-- C8: the aggregate user description accumulates a language-to-weight
map over all of the owner's items, summing sizes when a name recurs;
the top-3 selection has at most 3 entries and is ordered by cumulative
weight descending; on the scenario group with weights Python:100,
Go:50, Python:30 the aggregate is Python:130, Go:50 and the rendered
top-3 lists Python before Go. -/
theorem user_description_language_aggregation :
    (∀ (group : List RepoItem) (name : String),
      valueOf (accumulate_languages group) name
        = (((group.map RepoItem.languages).flatten.filter fun l => l.name == name).map
            Lang.size).sum
      ∧ (top_languages group).length ≤ 3
      ∧ List.Pairwise weightGe (top_languages group))
    ∧ accumulate_languages demoGroup = [("Python", 130), ("Go", 50)]
    ∧ top_languages demoGroup = [("Python", 130), ("Go", 50)]
    ∧ top_langs_str demoGroup = "Python (130 байт), Go (50 байт)" := by
  refine ⟨fun group name => ⟨valueOf_accumulate_languages group name, ?_, ?_⟩,
    by decide, by decide, by decide⟩
  · simp only [top_languages, List.length_take]
    exact min_le_left _ _
  · exact List.Pairwise.sublist (List.take_sublist 3 _)
      (List.sorted_insertionSort weightGe _)

/-- C9: pseudonymous-id derivation is a pure function of the input
string (determinism is definitional in the embedding), always producing
a fixed-length 16-character truncation of the 64-character SHA-256 hex
digest; checked against the standard SHA-256 test vectors for "abc" and
the empty string. -/
theorem create_hash_deterministic_fixed_length :
    (∀ s : String, create_hash s = create_hash s
      ∧ (create_hash s).length = 16
      ∧ (sha256_hexdigest s).length = 64)
    ∧ create_hash "abc" = "ba7816bf8f01cfea"
    ∧ create_hash "" = "e3b0c44298fc1c14" := by
  refine ⟨fun s => ⟨rfl, ?_, ?_⟩, by decide, by decide⟩
  · show ((sha256HexChars (utf8Bytes s)).take 16).length = 16
    simp [List.length_take, sha256HexChars_length]
  · show (sha256HexChars (utf8Bytes s)).length = 64
    exact sha256HexChars_length _

end RecomText

namespace RecomText

/-- C7: the sorted id-history table groups records by hashed owner id;
every emitted row has more than one item and its item-id list is the
hashes of exactly that owner's records (a permutation of the frame
restricted to the owner) in non-decreasing `pushedAt` order; and a
hashed owner appears in the table if and only if it owns more than one
record. -/
theorem repo_history_grouping (df : List Repo) :
    (∀ (k : String) (l : List String), (k, l) ∈ create_repo_history_sorted df →
      1 < l.length
      ∧ ∃ recs : List Repo,
          l = recs.map (fun r => create_hash r.nameWithOwner)
          ∧ (∀ r ∈ recs, create_hash r.owner = k)
          ∧ recs.Pairwise (fun a b => a.pushedAt ≤ b.pushedAt)
          ∧ List.Perm recs (df.filter fun r => create_hash r.owner == k))
    ∧ (∀ k : String, (∃ l, (k, l) ∈ create_repo_history_sorted df)
        ↔ 1 < df.countP fun r => create_hash r.owner == k) := by
  have hperm : List.Perm (List.insertionSort repoLe df) df :=
    List.perm_insertionSort repoLe df
  have hsorted : (List.insertionSort repoLe df).Pairwise repoLe :=
    List.sorted_insertionSort repoLe df
  have hchar : ∀ (k : String) (l : List String),
      (k, l) ∈ create_repo_history_sorted df ↔
      ((∃ r, r ∈ List.insertionSort repoLe df ∧ create_hash r.owner = k)
       ∧ l = ((List.insertionSort repoLe df).filter fun r => create_hash r.owner == k).map
           (fun r => create_hash r.nameWithOwner)
       ∧ 1 < l.length) := by
    intro k l
    simp only [create_repo_history_sorted, List.mem_filter, List.mem_map,
      List.mem_insertionSort, List.mem_dedup, decide_eq_true_eq, Prod.mk.injEq]
    constructor
    · rintro ⟨⟨a, ha, rfl, rfl⟩, hlen⟩
      exact ⟨ha, rfl, hlen⟩
    · rintro ⟨hr, rfl, hlen⟩
      exact ⟨⟨k, hr, rfl, rfl⟩, hlen⟩
  have hlen_eq : ∀ k : String,
      (((List.insertionSort repoLe df).filter fun r => create_hash r.owner == k).map
          (fun r => create_hash r.nameWithOwner)).length
        = df.countP fun r => create_hash r.owner == k := by
    intro k
    rw [List.length_map, ← List.countP_eq_length_filter]
    exact hperm.countP_eq _
  constructor
  · intro k l hmem
    obtain ⟨hex, hl, hlen⟩ := (hchar k l).mp hmem
    refine ⟨hlen, (List.insertionSort repoLe df).filter
      (fun r => create_hash r.owner == k), hl, ?_, ?_, ?_⟩
    · intro r hr
      have := (List.mem_filter.mp hr).2
      simpa using this
    · exact List.Pairwise.sublist (List.filter_sublist _) hsorted
    · exact hperm.filter _
  · intro k
    constructor
    · rintro ⟨l, hmem⟩
      obtain ⟨hex, hl, hlen⟩ := (hchar k l).mp hmem
      rw [hl, hlen_eq k] at hlen
      exact hlen
    · intro hcount
      have hpos : 0 < df.countP fun r => create_hash r.owner == k :=
        Nat.lt_of_lt_of_le Nat.zero_lt_one (Nat.le_of_lt hcount)
      obtain ⟨r, hr, hrk⟩ := List.countP_pos_iff.mp hpos
      have hr2 : r ∈ List.insertionSort repoLe df := (List.mem_insertionSort _).mpr hr
      have hrk2 : create_hash r.owner = k := by simpa using hrk
      have hlen2 : 1 < (((List.insertionSort repoLe df).filter
          fun x => create_hash x.owner == k).map
          (fun x => create_hash x.nameWithOwner)).length := by
        rw [hlen_eq k]
        exact hcount
      exact ⟨_, (hchar k _).mpr ⟨⟨r, hr2, hrk2⟩, rfl, hlen2⟩⟩

/-- C7 witness: on a concrete two-repository frame with a single owner,
the owner hash is present in the table and owns 2 > 1 records. -/
theorem repo_history_grouping_witness :
    ∃ l, (create_hash "alice", l) ∈ create_repo_history_sorted df_w :=
  ((repo_history_grouping df_w).2 (create_hash "alice")).mpr (by decide)

end RecomText
